import Mathlib

/-!
Verification of the BGP session protocol engine
(`lib/exabgp/reactor/protocol.py`).

The development shallowly embeds the pieces of `Protocol`
needed for the stated properties:

* the chunker `chunked` nested inside `Protocol._announce`,
* the write-progress loop of `Protocol._announce`,
* the frame dispatcher `Protocol.read_message`,
* the OPEN handshake validation `Protocol.read_open`.

Byte strings are modelled as `List Nat`; laziness of the Python
generators is modelled by returning the list of values yielded before
the generator either finishes or raises, together with a flag telling
whether it raised.
-/

/-- A raised `SizeError` is represented by the boolean `true` in the
second component of the chunker's result. -/
abbrev Raised := Bool

/-- The state of the chunker loop of `Protocol._announce.chunked`:
`chunk` is the accumulator string (initially `''`) and `number` the
count of fragments accumulated into it (initially `0`).  Processing a
fragment `data`:

* `len(data) > size` raises `SizeError`, modelled by the flag `true`;
  nothing more is yielded;
* if `len(chunk) + len(data) <= size` the fragment is appended and the
  count incremented;
* otherwise the pair `(number, chunk)` is yielded and the accumulator
  restarts from `data` with count `1`.

After the input is exhausted a non-empty accumulator is yielded. -/
def chunkedAux (size : Nat) (chunk : List Nat) (number : Nat) :
    List (List Nat) → List (Nat × List Nat) × Raised
  | [] => (if chunk = [] then [] else [(number, chunk)], false)
  | data :: rest =>
    if size < data.length then ([], true)
    else if chunk.length + data.length ≤ size then
      chunkedAux size (chunk ++ data) (number + 1) rest
    else
      let r := chunkedAux size data 1 rest
      ((number, chunk) :: r.1, r.2)

/-- `chunked(generator, size)` from `Protocol._announce`: the list of
`(number, chunk)` pairs yielded before the generator finished or raised
`SizeError`, and whether it raised. -/
def chunked (generator : List (List Nat)) (size : Nat) :
    List (Nat × List Nat) × Raised :=
  chunkedAux size [] 0 generator

/-- Invariant of a well-sized run of the chunker loop: starting from an
accumulator of length at most `size`, on fragments each of length at
most `size`, the loop never raises, the concatenation of the yielded
chunks is the pending accumulator followed by the concatenation of the
fragments, and every yielded chunk has length at most `size`. -/
theorem chunkedAux_ok (size : Nat) :
    ∀ (frags : List (List Nat)) (chunk : List Nat) (number : Nat),
      chunk.length ≤ size → (∀ d ∈ frags, d.length ≤ size) →
      (chunkedAux size chunk number frags).2 = false ∧
      ((chunkedAux size chunk number frags).1.map (fun c => c.2)).flatten
        = chunk ++ frags.flatten ∧
      ∀ c ∈ (chunkedAux size chunk number frags).1, c.2.length ≤ size := by
  intro frags
  induction frags with
  | nil =>
    intro chunk number hc _
    by_cases h : chunk = []
    · subst h; simp [chunkedAux]
    · simp [chunkedAux, h, hc]
  | cons d rest ih =>
    intro chunk number hc hall
    have hd : d.length ≤ size := hall d (by simp)
    have hrest : ∀ x ∈ rest, x.length ≤ size := fun x hx => hall x (by simp [hx])
    have hbig : ¬ size < d.length := by omega
    by_cases hfit : chunk.length + d.length ≤ size
    · have hlen : (chunk ++ d).length ≤ size := by
        simp only [List.length_append]; omega
      have h := ih (chunk ++ d) (number + 1) hlen hrest
      simp only [chunkedAux, if_neg hbig, if_pos hfit]
      refine ⟨h.1, ?_, h.2.2⟩
      rw [h.2.1]
      simp [List.append_assoc]
    · have h := ih d 1 hd hrest
      simp only [chunkedAux, if_neg hbig, if_neg hfit]
      refine ⟨h.1, ?_, ?_⟩
      · simp only [List.map_cons, List.flatten_cons, h.2.1, List.flatten_cons]
      · intro c hcmem
        rcases List.mem_cons.mp hcmem with hceq | hcmem
        · subst hceq; exact hc
        · exact h.2.2 c hcmem

/-- A run of the chunker loop started with a non-empty accumulator,
on fragments none of which is oversized, yields at least one chunk. -/
theorem chunkedAux_ne_nil (size : Nat) :
    ∀ (frags : List (List Nat)) (chunk : List Nat) (number : Nat),
      chunk ≠ [] → (∀ d ∈ frags, d.length ≤ size) →
      (chunkedAux size chunk number frags).1 ≠ [] := by
  intro frags
  induction frags with
  | nil =>
    intro chunk number hc _
    simp [chunkedAux, hc]
  | cons d rest ih =>
    intro chunk number hc hall
    have hd : d.length ≤ size := hall d (by simp)
    have hrest : ∀ x ∈ rest, x.length ≤ size := fun x hx => hall x (by simp [hx])
    have hbig : ¬ size < d.length := by omega
    by_cases hfit : chunk.length + d.length ≤ size
    · simpa only [chunkedAux, if_neg hbig, if_pos hfit] using
        ih (chunk ++ d) (number + 1) (by simp [hc]) hrest
    · simp [chunkedAux, if_neg hbig, if_neg hfit]

/-- Behaviour of the chunker loop when an oversized fragment `big` is
reached after well-sized fragments `pre`: the loop raises, and the
chunks yielded before the raise are exactly those of an error-free run
on `pre` with the trailing pending accumulator removed. -/
theorem chunkedAux_big (size : Nat) (big : List Nat) (post : List (List Nat))
    (hbig : size < big.length) :
    ∀ (pre : List (List Nat)) (chunk : List Nat) (number : Nat),
      chunk.length ≤ size → (∀ d ∈ pre, d.length ≤ size) →
      chunkedAux size chunk number (pre ++ big :: post)
        = ((chunkedAux size chunk number pre).1.dropLast, true) := by
  intro pre
  induction pre with
  | nil =>
    intro chunk number hc _
    by_cases h : chunk = []
    · subst h; simp [chunkedAux, hbig]
    · simp [chunkedAux, hbig, h]
  | cons d rest ih =>
    intro chunk number hc hall
    have hd : d.length ≤ size := hall d (by simp)
    have hrest : ∀ x ∈ rest, x.length ≤ size := fun x hx => hall x (by simp [hx])
    have hdbig : ¬ size < d.length := by omega
    by_cases hfit : chunk.length + d.length ≤ size
    · have hlen : (chunk ++ d).length ≤ size := by
        simp only [List.length_append]; omega
      simpa only [List.cons_append, chunkedAux, if_neg hdbig, if_pos hfit] using
        ih (chunk ++ d) (number + 1) hlen hrest
    · have hdne : d ≠ [] := by
        intro h
        subst h
        simp at hfit
        omega
      have hne := chunkedAux_ne_nil size rest d 1 hdne hrest
      have h := ih d 1 hd hrest
      simp only [List.cons_append, chunkedAux, if_neg hdbig, if_neg hfit,
        List.append_eq, h]
      cases hrec : (chunkedAux size d 1 rest).1 with
      | nil => exact absurd hrec hne
      | cons a t => simp

/-- The concatenation of a prefix is a prefix of the concatenation. -/
theorem flatten_prefix_of_prefix {α : Type} {l₁ l₂ : List (List α)}
    (h : l₁ <+: l₂) : l₁.flatten <+: l₂.flatten := by
  obtain ⟨t, ht⟩ := h
  subst ht
  rw [List.flatten_append]
  exact List.prefix_append _ _

/-- The inner loop of `Protocol._announce` over one chunk: for each
boolean progress signal produced by `write`, yield the chunk's fragment
count on `True` and `0` on `False`. -/
def write_results (number : Nat) : List Bool → List Nat
  | [] => []
  | b :: bs => (if b then number else 0) :: write_results number bs

/-- The outer loop of `Protocol._announce`: hand each chunk to the
writer in order.  `sig i` is the sequence of boolean progress signals
the transport reports while writing the `i`-th chunk. -/
def announceLoop (sig : Nat → List Bool) : Nat → List (Nat × List Nat) → List Nat
  | _, [] => []
  | i, c :: rest => write_results c.1 (sig i) ++ announceLoop sig (i + 1) rest

/-- `Protocol._announce`: chunk the fragment sequence and drive the
writer, yielding one progress number per write signal.  The `Raised`
flag records whether the chunker raised `SizeError` (after the values
already yielded). -/
def announce (size : Nat) (frags : List (List Nat)) (sig : Nat → List Bool) :
    List Nat × Raised :=
  (announceLoop sig 0 (chunked frags size).1, (chunked frags size).2)

/-- The per-chunk write loop maps each signal independently. -/
theorem write_results_eq (number : Nat) (bs : List Bool) :
    write_results number bs = bs.map (fun b => if b then number else 0) := by
  induction bs with
  | nil => rfl
  | cons b t ih => simp [write_results, ih]

/-- The announce loop, characterised chunk by chunk. -/
theorem announceLoop_eq (sig : Nat → List Bool) :
    ∀ (chunks : List (Nat × List Nat)) (i : Nat),
      announceLoop sig i chunks
        = ((chunks.enumFrom i).map
            (fun p => (sig p.1).map (fun b => if b then p.2.1 else 0))).flatten := by
  intro chunks
  induction chunks with
  | nil => intro i; rfl
  | cons c rest ih =>
    intro i
    simp [announceLoop, write_results_eq, ih (i + 1)]

/-- Claim C1: if every fragment's length is at most `size`, the chunker
raises nothing, the concatenation of the emitted chunks equals the
concatenation of the input fragments in arrival order, and every
emitted chunk's byte length is at most `size`. -/
theorem claim_C1_chunker_preserves_bytes (size : Nat) (frags : List (List Nat))
    (h : ∀ d ∈ frags, d.length ≤ size) :
    (chunked frags size).2 = false ∧
    ((chunked frags size).1.map (fun c => c.2)).flatten = frags.flatten ∧
    ∀ c ∈ (chunked frags size).1, c.2.length ≤ size := by
  have hok := chunkedAux_ok size frags [] 0 (Nat.zero_le size) h
  exact ⟨hok.1, by simpa using hok.2.1, hok.2.2⟩

/-- Witness for C1 at fragments `[[1,2],[3],[4]]` with `size = 2`. -/
theorem claim_C1_witness :
    (∀ d ∈ ([[1, 2], [3], [4]] : List (List Nat)), d.length ≤ 2) ∧
    ((chunked [[1, 2], [3], [4]] 2).2 = false ∧
     ((chunked [[1, 2], [3], [4]] 2).1.map (fun c => c.2)).flatten
       = ([[1, 2], [3], [4]] : List (List Nat)).flatten ∧
     ∀ c ∈ (chunked [[1, 2], [3], [4]] 2).1, c.2.length ≤ 2) :=
  ⟨by decide, claim_C1_chunker_preserves_bytes 2 [[1, 2], [3], [4]] (by decide)⟩

/-- Claim C2: an oversized fragment makes the chunker raise
`SizeError`, and the bytes emitted before the raise are a prefix of the
bytes of the fragments preceding the oversized one: no byte of the
oversized fragment or of any later fragment is ever emitted. -/
theorem claim_C2_oversized_raises (size : Nat) (pre : List (List Nat))
    (big : List Nat) (post : List (List Nat))
    (hpre : ∀ d ∈ pre, d.length ≤ size) (hbig : size < big.length) :
    (chunked (pre ++ big :: post) size).2 = true ∧
    ((chunked (pre ++ big :: post) size).1.map (fun c => c.2)).flatten
      <+: pre.flatten := by
  have h := chunkedAux_big size big post hbig pre [] 0 (Nat.zero_le size) hpre
  have hok := chunkedAux_ok size pre [] 0 (Nat.zero_le size) hpre
  constructor
  · show (chunkedAux size [] 0 (pre ++ big :: post)).2 = true
    rw [h]
  · show ((chunkedAux size [] 0 (pre ++ big :: post)).1.map (fun c => c.2)).flatten
      <+: pre.flatten
    rw [h]
    have hdp : (chunkedAux size [] 0 pre).1.dropLast <+: (chunkedAux size [] 0 pre).1 :=
      List.dropLast_prefix _
    have hmap := hdp.map (fun c => c.2)
    have hj := flatten_prefix_of_prefix hmap
    rw [hok.2.1] at hj
    simpa using hj

/-- Witness for C2 at fragments `[[1,2],[7,8,9],[5]]` with `size = 2`:
the second fragment is oversized. -/
theorem claim_C2_witness :
    ((∀ d ∈ ([[1, 2]] : List (List Nat)), d.length ≤ 2) ∧ 2 < ([7, 8, 9] : List Nat).length) ∧
    ((chunked ([[1, 2]] ++ [7, 8, 9] :: [[5]]) 2).2 = true ∧
     ((chunked ([[1, 2]] ++ [7, 8, 9] :: [[5]]) 2).1.map (fun c => c.2)).flatten
       <+: ([[1, 2]] : List (List Nat)).flatten) :=
  ⟨⟨by decide, by decide⟩,
    claim_C2_oversized_raises 2 [[1, 2]] [7, 8, 9] [[5]] (by decide) (by decide)⟩

/-- Claim C3: three fragments of lengths 10, 10 and 10 with
`message_size = 25` are chunked into a chunk of count 2 holding the
first two fragments concatenated (20 bytes) followed by a chunk of
count 1 holding the third fragment (10 bytes), with no error. -/
theorem claim_C3_concrete_chunking :
    chunked [List.replicate 10 1, List.replicate 10 2, List.replicate 10 3] 25 =
      ([(2, List.replicate 10 1 ++ List.replicate 10 2), (1, List.replicate 10 3)], false) ∧
    (List.replicate 10 (1 : Nat) ++ List.replicate 10 2).length = 20 ∧
    (List.replicate 10 (3 : Nat)).length = 10 := by
  refine ⟨by decide, by decide, by decide⟩

/-- Claim C7: in `_announce`, the values yielded are exactly, chunk by
chunk in order and signal by signal in order, the chunk's fragment
count for a `True` write signal and `0` for a `False` one; no signal
raises. -/
theorem claim_C7_progress_signals (size : Nat) (frags : List (List Nat))
    (sig : Nat → List Bool) :
    (announce size frags sig).1
      = (((chunked frags size).1.enum).map
          (fun p => (sig p.1).map (fun b => if b then p.2.1 else 0))).flatten := by
  show announceLoop sig 0 (chunked frags size).1 = _
  rw [announceLoop_eq]
  rfl

/-- Claim C10: when an oversized fragment is reached, the chunks
already flushed have been emitted but the pending partially-filled
accumulator is discarded: the emitted chunk list is the error-free
chunking of the preceding fragments with its final pending chunk
removed, and the error is raised. -/
theorem claim_C10_partial_chunk_discarded (size : Nat) (pre : List (List Nat))
    (big : List Nat) (post : List (List Nat))
    (hpre : ∀ d ∈ pre, d.length ≤ size) (hbig : size < big.length) :
    chunked (pre ++ big :: post) size = ((chunked pre size).1.dropLast, true) :=
  chunkedAux_big size big post hbig pre [] 0 (Nat.zero_le size) hpre

/-- Witness for C10: with `size = 25`, fragments of lengths 10, 10, 10
followed by an oversized fragment of length 30, the first flushed chunk
is emitted and the pending chunk holding the third fragment is
discarded. -/
theorem claim_C10_witness :
    ((∀ d ∈ [List.replicate 10 1, List.replicate 10 2, List.replicate 10 3],
        List.length d ≤ 25) ∧ 25 < (List.replicate 30 4).length) ∧
    chunked ([List.replicate 10 1, List.replicate 10 2, List.replicate 10 3]
        ++ List.replicate 30 4 :: []) 25
      = ((chunked [List.replicate 10 1, List.replicate 10 2, List.replicate 10 3] 25).1.dropLast,
         true) :=
  ⟨⟨by decide, by decide⟩,
    claim_C10_partial_chunk_discarded 25
      [List.replicate 10 1, List.replicate 10 2, List.replicate 10 3]
      (List.replicate 30 4) [] (by decide) (by decide)⟩

/-- Modelled from the spec: the BGP message type codes referenced by
the dispatcher (`Message.Type` lives in a module outside the given
source); these are the standard wire values of RFC 4271 / RFC 2918. -/
def TYPE_OPEN : Nat := 1

def TYPE_UPDATE : Nat := 2

def TYPE_NOTIFICATION : Nat := 3

def TYPE_KEEPALIVE : Nat := 4

def TYPE_ROUTE_REFRESH : Nat := 5

/-- Modelled from the spec: the fixed END-OF-RIB marker, called
`EOR.PREFIX` in the source tree (its defining module is outside the
given source); the claims depend only on it being a fixed byte string
that the UPDATE body may or may not start with. -/
def EOR_MARKER : List Nat := [0, 0, 0, 7, 144, 15, 0, 3]

/-- Modelled from the spec: the negotiated multisession outcome is
either a boolean flag or, when capability negotiation failed, an error
payload raised verbatim as a notification (`Notify(*multisession)`). -/
inductive Multisession where
  | flag : Bool → Multisession
  | fault : Nat → Nat → Multisession
deriving DecidableEq

/-- Modelled from the spec: a decoded OPEN message
(`Open().factory` lives outside the given source) carrying the fields
`read_open` inspects: ASN, router id (`0` standing for `0.0.0.0`),
hold time, the capability-derived ASN4 flag and the multisession
outcome. -/
structure OpenMsg where
  version : Nat
  asn : Nat
  router_id : Nat
  hold_time : Nat
  asn4 : Bool
  multisession : Multisession
deriving DecidableEq

/-- A raw frame as produced by `connection.reader()`:
`(length, msg, header, body)`. -/
structure Frame where
  length : Nat
  msg : Nat
  header : List Nat
  body : List Nat
deriving DecidableEq

/-- The typed messages yielded by `read_message`.  `nop` is the `_NOP`
scheduling marker for an incomplete or suppressed frame; `unknownNop`
is `NOP().factory(msg)` for an unknown type code; the body-carrying
variants stand for the corresponding `factory` decodes of that body. -/
inductive BMessage where
  | nop : BMessage
  | unknownNop : Nat → BMessage
  | eor : List Nat → BMessage
  | update : List Nat → BMessage
  | keepalive : BMessage
  | notification : List Nat → BMessage
  | routeRefresh : List Nat → BMessage
  | openMsg : OpenMsg → BMessage
deriving DecidableEq

/-- `message.TYPE == NOP.TYPE`: both `_NOP` and the unknown-type
`NOP().factory(msg)` are instances of `NOP`. -/
def isNopType : BMessage → Bool
  | BMessage.nop => true
  | BMessage.unknownNop _ => true
  | _ => false

/-- `Protocol.read_message` for one complete frame.  `openF` stands for
the external `Open().factory` decoder, `receive_routes` for
`neighbor.api.receive_routes`, and `zeroReads` for the number of
zero-length reads the transport reported before the frame completed
(each yielding `_NOP`).  The reader-level `ValueError` conversion of
lines 98-100 concerns a failing transport and is not modelled. -/
def read_message (openF : List Nat → OpenMsg) (receive_routes : Bool)
    (zeroReads : Nat) (frame : Frame) : List BMessage :=
  List.replicate zeroReads BMessage.nop ++
  (if frame.msg = TYPE_UPDATE then
    (if frame.length = 30 ∧ EOR_MARKER.isPrefixOf frame.body = true then
      [BMessage.eor frame.body]
    else []) ++
    (if receive_routes then [BMessage.update frame.body] else [BMessage.nop])
  else if frame.msg = TYPE_KEEPALIVE then [BMessage.keepalive]
  else if frame.msg = TYPE_NOTIFICATION then [BMessage.notification frame.body]
  else if frame.msg = TYPE_ROUTE_REFRESH then [BMessage.routeRefresh frame.body]
  else if frame.msg = TYPE_OPEN then [BMessage.openMsg (openF frame.body)]
  else [BMessage.unknownNop frame.msg])

/-- A BGP NOTIFICATION error as raised by `Notify(code, subcode, msg)`;
the human-readable string is omitted. -/
structure Notify where
  code : Nat
  subcode : Nat
deriving DecidableEq

/-- The per-peer configuration `read_open` consults: the expected peer
ASN, the local ASN together with whether it needs 4-byte encoding
(`local_as.asn4()`), and the local router id. -/
structure Neighbor where
  peer_as : Nat
  local_as : Nat
  local_as_asn4 : Bool
  router_id : Nat
deriving DecidableEq

/-- Modelled from the spec: `NegotiatedState` (the `Negotiated` class
lives outside the given source).  `receivedOpen` is the peer OPEN
stored by `negotiated.received(message)`; the derived fields below read
it. -/
structure Negotiated where
  receivedOpen : Option OpenMsg
deriving DecidableEq

/-- `negotiated.received(message)` stores the peer OPEN. -/
def Negotiated.received (_st : Negotiated) (o : OpenMsg) : Negotiated :=
  Negotiated.mk (some o)

/-- Modelled from the spec: derived ASN4 support, false before any
OPEN was received. -/
def Negotiated.asn4 : Negotiated → Bool
  | Negotiated.mk (some o) => o.asn4
  | Negotiated.mk none => false

/-- Modelled from the spec: derived peer ASN, `0` before any OPEN was
received. -/
def Negotiated.peer_as : Negotiated → Nat
  | Negotiated.mk (some o) => o.asn
  | Negotiated.mk none => 0

/-- Modelled from the spec: derived multisession outcome, a plain
false flag before any OPEN was received. -/
def Negotiated.multisession : Negotiated → Multisession
  | Negotiated.mk (some o) => o.multisession
  | Negotiated.mk none => Multisession.flag false

/-- The validation chain of `read_open` (lines 154-179), run after
`negotiated.received(message)`: ASN4 requirement, ASN match, zero
router id, router-id/ASN collision, hold time, multisession payload,
in the source's order, first failure winning. -/
def open_checks (nb : Neighbor) (st : Negotiated) (o : OpenMsg) :
    Except Notify OpenMsg :=
  if !st.asn4 && nb.local_as_asn4 then Except.error (Notify.mk 2 0)
  else if st.peer_as ≠ nb.peer_as then Except.error (Notify.mk 2 2)
  else if o.router_id = 0 then Except.error (Notify.mk 2 3)
  else if o.router_id = nb.router_id ∧ o.asn = nb.local_as then Except.error (Notify.mk 2 3)
  else if o.hold_time ≠ 0 ∧ o.hold_time < 3 then Except.error (Notify.mk 2 6)
  else
    match st.multisession with
    | Multisession.fault c s => Except.error (Notify.mk c s)
    | Multisession.flag _ => Except.ok o

/-- `Protocol.read_open` over the stream of messages produced by
`read_message`: skip every NOP-typed message; the first non-NOP one
must be an OPEN (else `Notify(5,1)`); an OPEN is recorded into the
negotiated state by `negotiated.received(message)` and then validated.
The result pairs the outcome with the final negotiated state, since a
raised `Notify` does not undo the mutation of line 152. -/
def read_open (nb : Neighbor) (st : Negotiated) (stream : List BMessage) :
    Except Notify OpenMsg × Negotiated :=
  match stream.find? (fun m => !(isNopType m)) with
  | some (BMessage.openMsg o) => (open_checks nb (st.received o) o, st.received o)
  | _ => (Except.error (Notify.mk 5 1), st)

/-- Modelled from the spec: the ordered validation table of the
handshake — ASN4 capability `(2,0)`, ASN match `(2,2)`, router-id zero
`(2,3)`, router-id/ASN collision `(2,3)`, hold time `(2,6)`, then the
multisession payload propagated verbatim — applied in the listed order,
failing fast on the first violation, producing the validated OPEN when
every rule passes. -/
def spec_open_validation (nb : Neighbor) (o : OpenMsg) : Except Notify OpenMsg :=
  if nb.local_as_asn4 && !o.asn4 then Except.error (Notify.mk 2 0)
  else if o.asn ≠ nb.peer_as then Except.error (Notify.mk 2 2)
  else if o.router_id = 0 then Except.error (Notify.mk 2 3)
  else if o.router_id = nb.router_id ∧ o.asn = nb.local_as then Except.error (Notify.mk 2 3)
  else if o.hold_time ≠ 0 ∧ o.hold_time < 3 then Except.error (Notify.mk 2 6)
  else
    match o.multisession with
    | Multisession.fault c s => Except.error (Notify.mk c s)
    | Multisession.flag _ => Except.ok o

/-- `find?` skips a block of elements on which the predicate is false
and returns the first hit. -/
theorem find_skip {α : Type} (p : α → Bool) :
    ∀ (pre : List α) (x : α) (rest : List α),
      (∀ m ∈ pre, p m = false) → p x = true →
      List.find? p (pre ++ x :: rest) = some x := by
  intro pre
  induction pre with
  | nil =>
    intro x rest _ hx
    simp [List.find?, hx]
  | cons a t ih =>
    intro x rest h hx
    have ha : p a = false := h a (by simp)
    simp only [List.cons_append, List.find?, ha]
    exact ih x rest (fun m hm => h m (by simp [hm])) hx

/-- A sample peer configuration: expected peer ASN 100, local ASN 200
not needing 4-byte encoding, local router id 42. -/
def nbA : Neighbor := Neighbor.mk 100 200 false 42

/-- A sample peer OPEN whose only defect is the zero router id. -/
def openZeroRid : OpenMsg := OpenMsg.mk 4 100 0 180 true (Multisession.flag false)

/-- A sample peer OPEN with both a zero router id and a mismatched
ASN. -/
def openMismatch : OpenMsg := OpenMsg.mk 4 999 0 180 true (Multisession.flag false)

/-- A sample stand-in for the external OPEN body decoder. -/
def openFSample : List Nat → OpenMsg :=
  fun _ => OpenMsg.mk 4 0 0 0 false (Multisession.flag false)

/-- Claim C5: once the first non-NOP message of `read_open` is an OPEN,
the outcome is exactly the spec's ordered, fail-fast validation table
applied to that OPEN. -/
theorem claim_C5_validation_order (nb : Neighbor) (st : Negotiated)
    (pre : List BMessage) (o : OpenMsg) (rest : List BMessage)
    (h : ∀ m ∈ pre, isNopType m = true) :
    (read_open nb st (pre ++ BMessage.openMsg o :: rest)).1
      = spec_open_validation nb o := by
  have hfind : List.find? (fun m => !(isNopType m)) (pre ++ BMessage.openMsg o :: rest)
      = some (BMessage.openMsg o) :=
    find_skip _ pre _ rest (fun m hm => by simp [h m hm]) (by simp [isNopType])
  simp only [read_open, hfind]
  show open_checks nb (st.received o) o = spec_open_validation nb o
  obtain ⟨pas, las, lasn4, rid⟩ := nb
  obtain ⟨v, a, r, ht, a4, ms⟩ := o
  simp only [open_checks, spec_open_validation, Negotiated.received,
    Negotiated.asn4, Negotiated.peer_as, Negotiated.multisession]
  cases a4 <;> cases lasn4 <;> simp

/-- Witness for C5: one leading NOP, then the zero-router-id OPEN
against the sample configuration. -/
theorem claim_C5_witness :
    (∀ m ∈ ([BMessage.nop] : List BMessage), isNopType m = true) ∧
    (read_open nbA (Negotiated.mk none)
        ([BMessage.nop] ++ BMessage.openMsg openZeroRid :: [])).1
      = spec_open_validation nbA openZeroRid :=
  ⟨by decide,
    claim_C5_validation_order nbA (Negotiated.mk none) [BMessage.nop]
      openZeroRid [] (by decide)⟩

/-- Counterexample to C4 as stated: a peer OPEN with router id
`0.0.0.0` but a mismatched ASN fails with `(2,2)`, not `(2,3)` — the
ASN check of line 161 runs before the router-id check of line 167. -/
theorem claim_C4_counterexample :
    (read_open nbA (Negotiated.mk none) [BMessage.openMsg openMismatch]).1
      = Except.error (Notify.mk 2 2) ∧
    Notify.mk 2 2 ≠ Notify.mk 2 3 :=
  ⟨rfl, by decide⟩

/-- Claim C4 (amended): a peer OPEN with router id `0.0.0.0` that
passes the earlier ASN4-requirement and ASN-match checks fails with
`(2,3)`, regardless of all its remaining fields. -/
theorem claim_C4_router_id_zero (nb : Neighbor) (st : Negotiated) (o : OpenMsg)
    (h1 : nb.local_as_asn4 = true → o.asn4 = true)
    (h2 : o.asn = nb.peer_as) (h3 : o.router_id = 0) :
    (read_open nb st [BMessage.openMsg o]).1 = Except.error (Notify.mk 2 3) := by
  have hfind : List.find? (fun m => !(isNopType m)) [BMessage.openMsg o]
      = some (BMessage.openMsg o) := by
    simp [List.find?, isNopType]
  simp only [read_open, hfind]
  show open_checks nb (st.received o) o = _
  have hc1 : (!(Negotiated.asn4 (st.received o)) && nb.local_as_asn4) = false := by
    cases ha : o.asn4 with
    | true => simp [Negotiated.received, Negotiated.asn4, ha]
    | false =>
      cases hb : nb.local_as_asn4 with
      | true => exact absurd (h1 hb) (by simp [ha])
      | false => simp [Negotiated.received, Negotiated.asn4, ha]
  have hc2 : ¬ (Negotiated.peer_as (st.received o) ≠ nb.peer_as) := by
    simp [Negotiated.received, Negotiated.peer_as, h2]
  simp only [open_checks]
  rw [hc1]
  simp [hc2, h3]

/-- Witness for C4 (amended) at the sample configuration and the
zero-router-id OPEN. -/
theorem claim_C4_witness :
    ((nbA.local_as_asn4 = true → openZeroRid.asn4 = true) ∧
      openZeroRid.asn = nbA.peer_as ∧ openZeroRid.router_id = 0) ∧
    (read_open nbA (Negotiated.mk none) [BMessage.openMsg openZeroRid]).1
      = Except.error (Notify.mk 2 3) :=
  ⟨⟨by decide, by decide, by decide⟩,
    claim_C4_router_id_zero nbA (Negotiated.mk none) openZeroRid
      (by decide) (by decide) (by decide)⟩

/-- Counterexample to C6 as stated: on a validation failure (zero
router id, notification `(2,3)`) the negotiated state has nevertheless
been mutated — `negotiated.received(message)` at line 152 runs before
any validation. -/
theorem claim_C6_counterexample :
    (read_open nbA (Negotiated.mk none) [BMessage.openMsg openZeroRid]).1
      = Except.error (Notify.mk 2 3) ∧
    (read_open nbA (Negotiated.mk none) [BMessage.openMsg openZeroRid]).2
      ≠ Negotiated.mk none :=
  ⟨rfl, by decide⟩

/-- Claim C6 (amended): `read_open` records the peer OPEN into the
negotiated state as soon as the first non-NOP message is confirmed to
be an OPEN — before any validation rule runs — so the final state
carries that OPEN both on success and on any validation failure. -/
theorem claim_C6_received_before_validation (nb : Neighbor) (st : Negotiated)
    (pre : List BMessage) (o : OpenMsg) (rest : List BMessage)
    (h : ∀ m ∈ pre, isNopType m = true) :
    (read_open nb st (pre ++ BMessage.openMsg o :: rest)).2
      = Negotiated.mk (some o) := by
  have hfind : List.find? (fun m => !(isNopType m)) (pre ++ BMessage.openMsg o :: rest)
      = some (BMessage.openMsg o) :=
    find_skip _ pre _ rest (fun m hm => by simp [h m hm]) (by simp [isNopType])
  simp only [read_open, hfind]
  rfl

/-- Witness for C6 (amended): the zero-router-id OPEN is recorded even
though validation then fails. -/
theorem claim_C6_witness :
    (∀ m ∈ ([BMessage.nop] : List BMessage), isNopType m = true) ∧
    (read_open nbA (Negotiated.mk none)
        ([BMessage.nop] ++ BMessage.openMsg openZeroRid :: [])).2
      = Negotiated.mk (some openZeroRid) :=
  ⟨by decide,
    claim_C6_received_before_validation nbA (Negotiated.mk none) [BMessage.nop]
      openZeroRid [] (by decide)⟩

/-- Claim C8: a frame whose type code is none of UPDATE, KEEPALIVE,
NOTIFICATION, ROUTE-REFRESH or OPEN is dispatched to the NOP-typed
unknown marker carrying that type code, and to nothing else — the
unknown branch cannot fail. -/
theorem claim_C8_unknown_type (openF : List Nat → OpenMsg) (rr : Bool) (k : Nat)
    (fr : Frame) (h1 : fr.msg ≠ TYPE_UPDATE) (h2 : fr.msg ≠ TYPE_KEEPALIVE)
    (h3 : fr.msg ≠ TYPE_NOTIFICATION) (h4 : fr.msg ≠ TYPE_ROUTE_REFRESH)
    (h5 : fr.msg ≠ TYPE_OPEN) :
    read_message openF rr k fr
      = List.replicate k BMessage.nop ++ [BMessage.unknownNop fr.msg] := by
  simp [read_message, h1, h2, h3, h4, h5]

/-- Witness for C8 at type code 99. -/
theorem claim_C8_witness :
    ((Frame.mk 0 99 [] []).msg ≠ TYPE_UPDATE ∧
     (Frame.mk 0 99 [] []).msg ≠ TYPE_KEEPALIVE ∧
     (Frame.mk 0 99 [] []).msg ≠ TYPE_NOTIFICATION ∧
     (Frame.mk 0 99 [] []).msg ≠ TYPE_ROUTE_REFRESH ∧
     (Frame.mk 0 99 [] []).msg ≠ TYPE_OPEN) ∧
    read_message openFSample false 2 (Frame.mk 0 99 [] [])
      = List.replicate 2 BMessage.nop
        ++ [BMessage.unknownNop (Frame.mk 0 99 [] []).msg] :=
  ⟨⟨by decide, by decide, by decide, by decide, by decide⟩,
    claim_C8_unknown_type openFSample false 2 (Frame.mk 0 99 [] [])
      (by decide) (by decide) (by decide) (by decide) (by decide)⟩

/-- Claim C9: an UPDATE frame of reported length 30 (the reader's
length component, per the spec the body length) whose body starts with
the END-OF-RIB marker yields two values: the END-OF-RIB message first,
then the decoded update when route decoding is enabled and the NOP
marker when it is disabled. -/
theorem claim_C9_eor_double_yield (openF : List Nat → OpenMsg) (rr : Bool)
    (k : Nat) (hdr body : List Nat) (h30 : body.length = 30)
    (hpre : EOR_MARKER.isPrefixOf body = true) :
    read_message openF rr k (Frame.mk body.length TYPE_UPDATE hdr body)
      = List.replicate k BMessage.nop ++
        [BMessage.eor body, if rr then BMessage.update body else BMessage.nop] := by
  cases rr <;> simp [read_message, h30, hpre]

/-- Witness for C9 at a 30-byte body starting with the END-OF-RIB
marker, with route decoding enabled. -/
theorem claim_C9_witness :
    ((EOR_MARKER ++ List.replicate 22 0).length = 30 ∧
     EOR_MARKER.isPrefixOf (EOR_MARKER ++ List.replicate 22 0) = true) ∧
    read_message openFSample true 1
        (Frame.mk (EOR_MARKER ++ List.replicate 22 0).length TYPE_UPDATE []
          (EOR_MARKER ++ List.replicate 22 0))
      = List.replicate 1 BMessage.nop ++
        [BMessage.eor (EOR_MARKER ++ List.replicate 22 0),
         if true then BMessage.update (EOR_MARKER ++ List.replicate 22 0)
         else BMessage.nop] :=
  ⟨⟨by decide, by decide⟩,
    claim_C9_eor_double_yield openFSample true 1 []
      (EOR_MARKER ++ List.replicate 22 0) (by decide) (by decide)⟩
